import Mathlib

/-!
Shallow embedding of the attribute normalization and reconciliation engine of
`src/helper/transfer-webscraped-attributes.py` and the tri-state nullable
extraction models of `src/llm/models.py`, together with theorems settling the
frozen claims about them.

Python values flowing through the pipeline (database cells, raw scraped
fields) are modelled by `RawVal`; Python `None` is the `none` constructor,
machine floats are modelled as exact rationals (the claims at hand concern
control flow and comparisons against small decimal constants, not rounding),
and the regular-expression searches of the source are modelled by explicit
character-list scanners with the same leftmost-match semantics. Python
string methods (`lower`, `upper`, `strip`, `split`) are modelled by
character-list functions so that every definition evaluates by kernel
reduction.
-/

namespace WebScraper

/-- Python `str.lower()` over characters. -/
def lowerChars (l : List Char) : List Char := l.map Char.toLower

/-- Python `str.upper()` over characters. -/
def upperChars (l : List Char) : List Char := l.map Char.toUpper

/-- Python `str.strip()` over characters: drop leading and trailing
whitespace. -/
def trimChars (l : List Char) : List Char :=
  ((l.dropWhile Char.isWhitespace).reverse.dropWhile Char.isWhitespace).reverse

/-- Python `str.lower()`. -/
def pyLower (s : String) : String := .mk (lowerChars s.data)

/-- Python `str.upper()`. -/
def pyUpper (s : String) : String := .mk (upperChars s.data)

/-- Python `str.strip()`. -/
def pyStrip (s : String) : String := .mk (trimChars s.data)

/-- Python `str.split(',')` over characters. -/
def splitComma : List Char → List (List Char)
  | [] => [[]]
  | c :: cs =>
    let r := splitComma cs
    if c = ',' then [] :: r
    else
      match r with
      | h :: t => (c :: h) :: t
      | [] => [[c]]

/-- Python runtime value as stored in the scraped-hotels table: `None`, a
bool, an int, a float, or a string. -/
inductive RawVal where
  | none
  | vBool (b : Bool)
  | vInt (n : Int)
  | vFloat (q : ℚ)
  | vStr (s : String)
deriving DecidableEq

/-- Python truthiness (`bool(x)`) for the values of `RawVal`. -/
def truthy : RawVal → Bool
  | .none => false
  | .vBool b => b
  | .vInt n => n != 0
  | .vFloat q => q != 0
  | .vStr s => s != ""

/-- Python `str(b)` for a bool: `"True"` or `"False"`. -/
def pyStrBool (b : Bool) : String := if b then "True" else "False"

/-- Model-level string representation of a float value (Python `str(f)`);
integral values render with a trailing `.0` exactly as Python does. -/
def floatStr (q : ℚ) : String :=
  if q.den = 1 then toString q.num ++ ".0" else toString q

/-- Python `str(raw)` for a raw value. -/
def pyStrRaw : RawVal → String
  | .none => "None"
  | .vBool b => pyStrBool b
  | .vInt n => toString n
  | .vFloat q => floatStr q
  | .vStr s => s

/-- Value of a list of decimal digit characters read left to right. -/
def digitsToNat (l : List Char) : Nat :=
  l.foldl (fun acc c => acc * 10 + (c.toNat - '0'.toNat)) 0

/-- Leftmost match of the regex `\d+`: the first maximal run of digits. -/
def firstDigitRun : List Char → Option (List Char)
  | [] => Option.none
  | c :: cs =>
    if c.isDigit then some (c :: cs.takeWhile Char.isDigit)
    else firstDigitRun cs

/-- Leftmost match of the regex `-?\d+`, already parsed to an integer. -/
def firstSignedIntRun : List Char → Option Int
  | [] => Option.none
  | c :: cs =>
    if c.isDigit then
      some (Int.ofNat (digitsToNat (c :: cs.takeWhile Char.isDigit)))
    else if c = '-' then
      match cs with
      | d :: _ =>
        if d.isDigit then
          some (-(Int.ofNat (digitsToNat (cs.takeWhile Char.isDigit))))
        else firstSignedIntRun cs
      | [] => Option.none
    else firstSignedIntRun cs

/-- Leftmost match of the regex `[\d]+\.?[\d]*`: integer digits plus the
digits after an optional decimal point. -/
def firstFloatRun : List Char → Option (List Char × List Char)
  | [] => Option.none
  | c :: cs =>
    if c.isDigit then
      let ip := c :: cs.takeWhile Char.isDigit
      match cs.dropWhile Char.isDigit with
      | '.' :: rs => some (ip, rs.takeWhile Char.isDigit)
      | _ => some (ip, [])
    else firstFloatRun cs

/-- Rational value of an integer-part/fraction-part digit pair:
`ip + fp / 10 ^ |fp|`, built with `mkRat` so that it evaluates by kernel
reduction. -/
def ratOfParts (ip fp : List Char) : ℚ :=
  mkRat (digitsToNat ip * 10 ^ fp.length + digitsToNat fp) (10 ^ fp.length)

/-- Does the pattern occur at the head of the text (`str.startswith`)? -/
def matchesHere : List Char → List Char → Bool
  | [], _ => true
  | _ :: _, [] => false
  | p :: ps, c :: cs => p == c && matchesHere ps cs

/-- Substring containment over character lists (Python `pat in s`). -/
def containsSub (pat : List Char) : List Char → Bool
  | [] => matchesHere pat []
  | c :: cs => matchesHere pat (c :: cs) || containsSub pat cs

/-- Python `pat in s` on strings. -/
def strContains (s pat : String) : Bool := containsSub pat.data s.data

/-- Embedding of `normalize_bool` (line 290): `True/False/"yes"/"no"/"1"/"0"`
to a bool, else `None`. -/
def normalize_bool : RawVal → Option Bool
  | .none => Option.none
  | .vBool b => some b
  | raw =>
    let s := pyStrip (pyLower (pyStrRaw raw))
    if s = "true" || s = "yes" || s = "1" || s = "t" || s = "y" then some true
    else if s = "false" || s = "no" || s = "0" || s = "f" || s = "n" then
      some false
    else Option.none

/-- Embedding of `normalize_int` (line 304): `None` for `None`; ints pass
through (Python bools are ints: `True` behaves as `1`); floats truncate
toward zero via `int()`; otherwise the first unsigned digit run of
`str(raw).strip()` is parsed, `None` if there is none. -/
def normalize_int : RawVal → Option Int
  | .none => Option.none
  | .vBool b => some (if b then 1 else 0)
  | .vInt n => some n
  | .vFloat q => some (q.num.tdiv q.den)
  | .vStr s =>
    (firstDigitRun (trimChars s.data)).map (fun l => (digitsToNat l : Int))

/-- Embedding of `normalize_float` (line 316): `None` for `None`; numbers
pass through; otherwise the first `[\d]+\.?[\d]*` match of
`str(raw).strip()` is parsed, `None` if there is none. -/
def normalize_float : RawVal → Option ℚ
  | .none => Option.none
  | .vBool b => some (if b then 1 else 0)
  | .vInt n => some (n : ℚ)
  | .vFloat q => some q
  | .vStr s =>
    (firstFloatRun (trimChars s.data)).map (fun p => ratOfParts p.1 p.2)

/-- Breed tag vocabulary `BREED_TAGS` (line 263). -/
def BREED_TAGS : List String :=
  ["BREED_PIT_BULL", "BREED_ROTTWEILER", "BREED_GERMAN_SHEPHERD",
   "BREED_DOBERMAN", "BREED_HUSKY", "BREED_AKITA", "BREED_MASTIFF",
   "BREED_CHOW_CHOW", "BREED_GREAT_DANE", "BREED_WOLF", "BREED_BOXER",
   "BREED_AMERICAN_BULLDOG", "BREED_STAFFORDSHIRE_TERRIER",
   "BREED_ALASKAN_MALAMUTE", "BREED_CANE_CORSO", "BREED_AGGRESSIVE",
   "BREED_LARGE", "BREED_CONTACT",
   "BREED_DOGO_ARGENTINO", "BREED_PRESA_CANARIO", "BREED_BELGIAN_MALINOIS",
   "BREED_ST_BERNARD", "BREED_BULL_TERRIER"]

/-- Interval vocabulary `ALLOWED_INTERVALS` (line 282). -/
def ALLOWED_INTERVALS : List String :=
  ["per-night", "per-stay", "per-day", "per-week", "one-time"]

/-- Currency allow-list `ALLOWED_CURRENCIES` (line 283). -/
def ALLOWED_CURRENCIES : List String :=
  ["usd", "eur", "gbp", "aud", "cad", "chf", "jpy", "cny", "inr", "mxn", "hkd"]

/-- Raw strings that `normalize_breeds` (line 361) treats as explicit
no-restriction markers. -/
def breedSkipSet : List String :=
  ["n/a", "none", "no", "no breed restriction", "no breed restrictions",
   "no aggressive breeds"]

/-- Keyword-substring tag matching of `normalize_breeds` (line 364 onwards),
applied to the lowercased raw text. -/
def breedTagsOf (s : String) : List String :=
  (if strContains s "pit" || strContains s "pitbull" then
          ["BREED_PIT_BULL"] else []) ++
        (if strContains s "rottweiler" then ["BREED_ROTTWEILER"] else []) ++
        (if strContains s "german shepherd" || strContains s "german-shepherd"
          then ["BREED_GERMAN_SHEPHERD"] else []) ++
        (if strContains s "doberman" then ["BREED_DOBERMAN"] else []) ++
        (if strContains s "husky" || strContains s "siberian" then
          ["BREED_HUSKY"] else []) ++
        (if strContains s "akita" then ["BREED_AKITA"] else []) ++
        (if strContains s "mastiff" then ["BREED_MASTIFF"] else []) ++
        (if strContains s "wolf" then ["BREED_WOLF"] else []) ++
        (if strContains s "chow" then ["BREED_CHOW_CHOW"] else []) ++
        (if strContains s "great dane" then ["BREED_GREAT_DANE"] else []) ++
        (if strContains s "boxer" then ["BREED_BOXER"] else []) ++
        (if strContains s "bulldog" && strContains s "american" then
          ["BREED_AMERICAN_BULLDOG"] else []) ++
        (if strContains s "staffordshire" then
          ["BREED_STAFFORDSHIRE_TERRIER"] else []) ++
        (if strContains s "malamute" then ["BREED_ALASKAN_MALAMUTE"] else []) ++
        (if strContains s "cane corso" then ["BREED_CANE_CORSO"] else []) ++
        (if strContains s "aggressive" then ["BREED_AGGRESSIVE"] else []) ++
        (if strContains s "large breed" then ["BREED_LARGE"] else []) ++
        (if strContains s "contact" then ["BREED_CONTACT"] else []) ++
        (if strContains s "dogo" || strContains s "argentino" then
          ["BREED_DOGO_ARGENTINO"] else []) ++
        (if strContains s "presa" || strContains s "canario" then
          ["BREED_PRESA_CANARIO"] else []) ++
        (if strContains s "belgian" || strContains s "malinois" then
          ["BREED_BELGIAN_MALINOIS"] else []) ++
        (if strContains s "st. bernard" || strContains s "saint bernard" ||
            strContains s "st bernard" then ["BREED_ST_BERNARD"] else []) ++
        (if strContains s "bull terrier" && !strContains s "staffordshire" then
          ["BREED_BULL_TERRIER"] else [])

/-- Embedding of `normalize_breeds` (line 355): falsy raw gives `None`;
strings in the skip set give `None`; otherwise keyword-substring matching
builds a tag list, `None` when no keyword matched. -/
def normalize_breeds (raw : RawVal) : Option (List String) :=
  if truthy raw = false then Option.none
  else
    let s := pyLower (pyStrRaw raw)
    if pyStrip s ∈ breedSkipSet then Option.none
    else
      let tags := breedTagsOf s
      if tags.isEmpty then Option.none else some tags

/-- Postgres array literal from a tag list, `list_to_pg_arr` (line 486). -/
def list_to_pg_arr (tags : List String) : String :=
  "\x7b" ++ String.intercalate "," tags ++ "\x7d"

/-- Typed value returned by the LLM fallback adapter: the Python value in
`llm_extract`'s `(extracted_value, is_invalid)` result, with the string
`'NULL'` reply of the int branch modelled as `nullSentinel`. -/
inductive LLMVal where
  | vb (b : Bool)
  | vi (n : Int)
  | vf (q : ℚ)
  | vs (s : String)
  | vlist (ts : List String)
  | nullSentinel
deriving DecidableEq

/-- Embedding of `llm_extract` (line 97). The Gemini transport is abstracted
into the `reply` argument: `none` models `call_gemini` returning `None`
after its retries, `some text` models a reply (the Python falsy check also
rejects an empty reply). Each branch parses the reply exactly as the source
does and returns the `(value, is_invalid)` pair. -/
def llm_extract (reply : Option String) (attr_name data_type : String)
    (allowed_tags : Option (List String)) : Option LLMVal × Bool :=
  if data_type = "bool" then
    match reply with
    | Option.none => (Option.none, true)
    | some result =>
      if result = "" then (Option.none, true)
      else
        let r := pyLower (pyStrip result)
        if r = "true" then (some (.vb true), false)
        else if r = "false" then (some (.vb false), false)
        else (Option.none, true)
  else if data_type = "int" then
    match reply with
    | Option.none => (Option.none, true)
    | some result =>
      if result = "" then (Option.none, true)
      else
        let r := pyUpper (pyStrip result)
        if r = "NULL" then (some .nullSentinel, false)
        else if r = "INVALID" then (Option.none, true)
        else
          match firstSignedIntRun r.data with
          | some n => (some (.vi n), false)
          | Option.none => (Option.none, true)
  else if data_type = "float" then
    match reply with
    | Option.none => (Option.none, true)
    | some result =>
      if result = "" then (Option.none, true)
      else
        let r := pyUpper (pyStrip result)
        if r = "INVALID" then (Option.none, true)
        else
          match firstFloatRun r.data with
          | some p => (some (.vf (ratOfParts p.1 p.2)), false)
          | Option.none => (Option.none, true)
  else if data_type = "str" && attr_name = "pet_fee_currency" then
    match reply with
    | Option.none => (Option.none, true)
    | some result =>
      if result = "" then (Option.none, true)
      else
        let r := pyLower (pyStrip result)
        if r = "invalid" || r.length ≠ 3 then (Option.none, true)
        else (some (.vs r), false)
  else if data_type = "str" && attr_name = "pet_fee_interval" then
    match reply with
    | Option.none => (Option.none, true)
    | some result =>
      if result = "" then (Option.none, true)
      else
        let r := pyLower (pyStrip result)
        if r ∈ ALLOWED_INTERVALS then (some (.vs r), false)
        else (Option.none, true)
  else if data_type = "list[str]" && allowed_tags.getD [] ≠ [] then
    match reply with
    | Option.none => (Option.none, true)
    | some result =>
      if result = "" then (Option.none, true)
      else
        let r := pyUpper (pyStrip result)
        if r = "INVALID" then (Option.none, true)
        else
          let extracted :=
            (splitComma r.data).map (fun l => String.mk (trimChars l))
          let valid :=
            extracted.filter (fun t => (allowed_tags.getD []).contains t)
          if valid.isEmpty then (Option.none, true)
          else (some (.vlist valid), false)
  else (Option.none, true)

/-- Static attribute-name → attribute-type-id map `ATTR_MAP` (line 206).
The four runtime-resolved names are absent, exactly as in the source before
`resolve_missing_attr_types` runs; theorems that quantify over the map take
it as a parameter `am` so runtime-extended maps are covered too. -/
def ATTR_MAP : String → Option String
  | "is_pet_friendly" => some "09a1c66f-a780-4ba2-99e3-feaeea25d41d"
  | "pet_fee_amount" => some "c86a1fb4-455d-48b3-aeca-4a73cbe6438e"
  | "pet_fee_interval" => some "b7486a97-3eb6-4d58-af7f-6e881a9feb05"
  | "max_pets_allowed" => some "26f8aae7-1a20-4683-b8ea-d877db9f0cd9"
  | "max_weight_lbs" => some "03a7571a-db77-4c99-9a24-87a8cba0f5a9"
  | "allowed_species" => some "6030e1c8-75a7-490c-b64d-5b423fcf53cb"
  | "breed_restrictions" => some "93539e95-dc41-405b-9664-e81017281fb8"
  | "has_pet_deposit" => some "f5c45b2d-3083-41bd-b596-b6797e02f3be"
  | "is_deposit_refundable" => some "267ea64d-d433-4836-87f1-397dfaaec55c"
  | "pet_fee_currency" => some "07d1da9d-d55c-4bf0-9570-3f24f9b8ad17"
  | "pet_fee_variations" => some "fc86ad4d-b96c-4998-96ca-236d99152c97"
  | "pet_amenities_list" => some "5d3d2e74-feb2-4438-b50a-9a503289c236"
  | "has_pet_amenities" => some "1e8212be-6385-4b60-ba90-27f3c540ce9a"
  | "general_pet_rules" => some "d7e360fb-350c-4508-aa7b-dfd015bbe089"
  | "pet_deposit_amount" => some "a990d55c-0ae3-4ebd-a629-7ac1ee3aea7f"
  | _ => Option.none

/-- Data-type map `ATTR_DATA_TYPES` (line 233), with the `.get(name, 'str')`
default of `upsert_attr` built in. -/
def ATTR_DATA_TYPES (name : String) : String :=
  if name = "is_pet_friendly" || name = "has_pet_deposit" ||
     name = "is_deposit_refundable" || name = "has_pet_amenities" ||
     name = "service_animals_allowed" ||
     name = "emotional_support_animals_allowed" then "bool"
  else if name = "max_pets_allowed" || name = "max_weight_lbs" ||
     name = "minimum_pet_age" then "int"
  else if name = "pet_fee_amount" || name = "pet_deposit_amount" then "float"
  else if name = "pet_fee_currency" || name = "pet_fee_interval" ||
     name = "service_animal_policy" then "str"
  else if name = "allowed_species" || name = "breed_restrictions" ||
     name = "pet_amenities_list" || name = "pet_fee_variations" ||
     name = "general_pet_rules" then "list[str]"
  else "str"

/-- One row of `ingestion.hotel_attributes` as touched by the engine.
UUIDs are modelled by naturals drawn from a per-store counter and the two
`datetime.now()` timestamps by a `Nat` supplied by the caller. -/
structure Row where
  id : Nat
  hotel_id : String
  attribute_type_id : String
  value : Option String
  value_bool : Option Bool
  value_int : Option Int
  value_num : Option ℚ
  value_arr : Option String
  confidence : ℚ
  generated_by : String
  created_by : String
  enabled : Bool
  effective_date : Nat
  created_at : Nat
  updated_at : Nat
  is_null : Bool
  is_invalid : Bool
deriving DecidableEq

/-- The attribute store: the rows plus the fresh-identity counter standing
in for `uuid.uuid4()`. -/
structure DB where
  rows : List Row
  nextId : Nat
deriving DecidableEq

/-- The empty store. -/
def emptyDB : DB := { rows := [], nextId := 0 }

/-- The WHERE clause of the UPDATE in `upsert_attr` (line 590): same hotel,
same attribute type, provenance `web-scraper`, and currently enabled. -/
def matchesKey (hid atid : String) (r : Row) : Bool :=
  r.hotel_id == hid && r.attribute_type_id == atid &&
    r.generated_by == "web-scraper" && r.enabled

/-- The `db_value` computation of `upsert_attr` (line 566): text mirror of
the typed value for bool/int/float, `NULL` for tag lists, and the `value`
argument itself (stringified, which on a string is the identity) otherwise. -/
def dbValueOf (dt : String) (value : Option String) (value_bool : Option Bool)
    (value_int : Option Int) (value_num : Option ℚ) : Option String :=
  if dt = "bool" && value_bool.isSome then value_bool.map pyStrBool
  else if dt = "int" && value_int.isSome then
    value_int.map (fun n => toString n)
  else if dt = "float" && value_num.isSome then value_num.map floatStr
  else if dt = "list[str]" then Option.none
  else value

/-- Confidence written by `upsert_attr`: `0.85 if not is_invalid else 0.0`. -/
def confOf (is_invalid : Bool) : ℚ := if is_invalid then 0 else mkRat 85 100

/-- The SET list of the UPDATE in `upsert_attr` (line 578) applied to one
matched row: all five value columns, confidence, enabled, `updated_at` and
the two flags are assigned; identity, provenance and creation fields are
untouched. -/
def updateRow (now : Nat) (dbv : Option String) (vb : Option Bool)
    (vi : Option Int) (vn : Option ℚ) (va : Option String)
    (inull iinv : Bool) (r : Row) : Row :=
  { r with
    value := dbv, value_bool := vb, value_int := vi, value_num := vn,
    value_arr := va, confidence := confOf iinv, enabled := !iinv,
    updated_at := now, is_null := inull, is_invalid := iinv }

/-- The row INSERTed by `upsert_attr` (line 613) when no row matched. -/
def insertRow (now : Nat) (freshId : Nat) (hid atid : String)
    (dbv : Option String) (vb : Option Bool) (vi : Option Int)
    (vn : Option ℚ) (va : Option String) (inull iinv : Bool) : Row :=
  { id := freshId, hotel_id := hid, attribute_type_id := atid,
    value := dbv, value_bool := vb, value_int := vi, value_num := vn,
    value_arr := va, confidence := confOf iinv,
    generated_by := "web-scraper", created_by := "system",
    enabled := !iinv, effective_date := now, created_at := now,
    updated_at := now, is_null := inull, is_invalid := iinv }

/-- Embedding of `upsert_attr` (line 549): resolve the attribute name in the
map `am` (unresolvable names are skipped and nothing is written); UPDATE
every row matching the scoped key, answering `updated` when at least one row
was affected; otherwise INSERT a fresh row and answer `inserted`. -/
def upsert_attr (am : String → Option String) (now : Nat) (db : DB)
    (hotel_id attr_name : String) (value : Option String)
    (value_bool : Option Bool) (value_int : Option Int)
    (value_num : Option ℚ) (value_arr : Option String)
    (is_null is_invalid : Bool) : DB × String :=
  match am attr_name with
  | Option.none => (db, "skipped")
  | some atid =>
    let dt := ATTR_DATA_TYPES attr_name
    let dbv := dbValueOf dt value value_bool value_int value_num
    if (db.rows.filter (matchesKey hotel_id atid)).length > 0 then
      ({ db with
          rows := db.rows.map (fun r =>
            if matchesKey hotel_id atid r then
              updateRow now dbv value_bool value_int value_num value_arr
                is_null is_invalid r
            else r) },
       "updated")
    else
      ({ rows := db.rows ++
          [insertRow now db.nextId hotel_id atid dbv value_bool value_int
            value_num value_arr is_null is_invalid],
         nextId := db.nextId + 1 },
       "inserted")

/-- Aggregate counters threaded through the orchestrator (line 783). -/
structure Stats where
  updated : Nat
  inserted : Nat
  invalid : Nat
  llm_calls : Nat
deriving DecidableEq

/-- All-zero counters. -/
def emptyStats : Stats := { updated := 0, inserted := 0, invalid := 0, llm_calls := 0 }

/-- Bump `updated`/`inserted` according to an upsert result, the pattern at
lines 686-691. -/
def bumpWrite (stats : Stats) (res : String) : Stats :=
  if res = "updated" then { stats with updated := stats.updated + 1 }
  else if res = "inserted" then { stats with inserted := stats.inserted + 1 }
  else stats

/-- Normalizer result handed to `process_attr`: the typed Python value its
callers pass (a bool, int, float, string, or an already rendered postgres
array literal). -/
inductive NormVal where
  | nb (b : Bool)
  | ni (n : Int)
  | nf (q : ℚ)
  | ns (s : String)
  | narr (s : String)
deriving DecidableEq

/-- The no-data guard of `process_attr` (line 695): `None`, or a string that
is blank after stripping. -/
def rawIsBlank : RawVal → Bool
  | .none => true
  | .vStr s => pyStrip s == ""
  | _ => false

/-- Embedding of `process_attr` (line 665). A successful normalizer result
is upserted into the typed column selected by `data_type`; otherwise blank
raw data is skipped entirely; otherwise the LLM adapter is consulted
(`reply` abstracts the Gemini transport), and its answer is persisted as a
typed value, as an explicit null (`NULL` sentinel, int kind), or as an
`is_invalid` row. -/
def process_attr (reply : Option String) (am : String → Option String)
    (now : Nat) (db : DB) (stats : Stats) (hotel_id attr_name : String)
    (raw_value : RawVal) (normalizer_result : Option NormVal)
    (data_type : String) (allowed_tags : Option (List String)) :
    DB × Stats :=
  match normalizer_result with
  | some nr =>
    let u :=
      if data_type = "bool" then
        upsert_attr am now db hotel_id attr_name Option.none
          (match nr with | .nb b => some b | _ => Option.none)
          Option.none Option.none Option.none false false
      else if data_type = "int" then
        upsert_attr am now db hotel_id attr_name Option.none Option.none
          (match nr with | .ni n => some n | _ => Option.none)
          Option.none Option.none false false
      else if data_type = "float" then
        upsert_attr am now db hotel_id attr_name Option.none Option.none
          Option.none (match nr with | .nf q => some q | _ => Option.none)
          Option.none false false
      else if data_type = "str" then
        upsert_attr am now db hotel_id attr_name
          (match nr with | .ns s => some s | _ => Option.none)
          Option.none Option.none Option.none Option.none false false
      else if data_type = "list[str]" then
        upsert_attr am now db hotel_id attr_name Option.none Option.none
          Option.none Option.none
          (match nr with | .narr s => some s | _ => Option.none) false false
      else (db, "skipped")
    (u.1, bumpWrite stats u.2)
  | Option.none =>
    if rawIsBlank raw_value then (db, stats)
    else
      let ex := llm_extract reply attr_name data_type allowed_tags
      let llm_val := ex.1
      let invalid := ex.2
      let stats1 := { stats with llm_calls := stats.llm_calls + 1 }
      if invalid || llm_val.isNone then
        let u := upsert_attr am now db hotel_id attr_name
          Option.none Option.none Option.none Option.none Option.none
          false true
        (u.1,
         if u.2 = "updated" || u.2 = "inserted" then
           { stats1 with invalid := stats1.invalid + 1 }
         else stats1)
      else if data_type = "int" && llm_val = some .nullSentinel then
        let u := upsert_attr am now db hotel_id attr_name
          Option.none Option.none Option.none Option.none Option.none
          true false
        (u.1, bumpWrite stats1 u.2)
      else
        let u :=
          if data_type = "bool" then
            upsert_attr am now db hotel_id attr_name Option.none
              (match llm_val with | some (.vb b) => some b | _ => Option.none)
              Option.none Option.none Option.none false false
          else if data_type = "int" then
            upsert_attr am now db hotel_id attr_name Option.none Option.none
              (match llm_val with | some (.vi n) => some n | _ => Option.none)
              Option.none Option.none false false
          else if data_type = "float" then
            upsert_attr am now db hotel_id attr_name Option.none Option.none
              Option.none
              (match llm_val with | some (.vf q) => some q | _ => Option.none)
              Option.none false false
          else if data_type = "str" then
            upsert_attr am now db hotel_id attr_name
              (match llm_val with | some (.vs s) => some s | _ => Option.none)
              Option.none Option.none Option.none Option.none false false
          else if data_type = "list[str]" then
            upsert_attr am now db hotel_id attr_name Option.none Option.none
              Option.none Option.none
              (match llm_val with
               | some (.vlist ts) => some (list_to_pg_arr ts)
               | _ => Option.none) false false
          else (db, "skipped")
        (u.1, bumpWrite stats1 u.2)

/-- Python `a or b` on raw values (line 825). -/
def pyOr (a b : RawVal) : RawVal := if truthy a then a else b

/-- The pet-fee section of `transfer_attributes` (lines 823-835): the raw
fee is `pet_fee_night or pet_fee_total_max`; a normalized fee above 1000 is
force-marked invalid without touching the LLM; otherwise the usual
resolution policy runs for `pet_fee_amount`. -/
def feeStep (reply : Option String) (am : String → Option String) (now : Nat)
    (db : DB) (stats : Stats) (hid : String) (row2 row3 : RawVal) :
    DB × Stats :=
  let raw_fee := pyOr row2 row3
  match normalize_float raw_fee with
  | some v =>
    if v > 1000 then
      let u := upsert_attr am now db hid "pet_fee_amount"
        Option.none Option.none Option.none Option.none Option.none
        false true
      (u.1,
       if u.2 = "updated" || u.2 = "inserted" then
         { stats with invalid := stats.invalid + 1 }
       else stats)
    else
      process_attr reply am now db stats hid "pet_fee_amount" raw_fee
        (some (.nf v)) "float" Option.none
  | Option.none =>
    process_attr reply am now db stats hid "pet_fee_amount" raw_fee
      Option.none "float" Option.none

/-- The pet-deposit section of `transfer_attributes` (lines 837-844): only a
strictly positive normalized deposit is processed; a present-but-unparsable
deposit goes to the LLM path; everything else (including a deposit of
exactly 0) is silently dropped. -/
def depositStep (reply : Option String) (am : String → Option String)
    (now : Nat) (db : DB) (stats : Stats) (hid : String) (raw : RawVal) :
    DB × Stats :=
  match normalize_float raw with
  | some v =>
    if v > 0 then
      process_attr reply am now db stats hid "pet_deposit_amount" raw
        (some (.nf v)) "float" Option.none
    else (db, stats)
  | Option.none =>
    if raw ≠ .none then
      process_attr reply am now db stats hid "pet_deposit_amount" raw
        Option.none "float" Option.none
    else (db, stats)

/-- The max-pets section of `transfer_attributes` (lines 806-821): a parsed
value of at most 10 is a pet count (`max_pets_allowed`), a larger one is a
weight (`max_weight_lbs`); an unparsable non-null raw goes to the LLM under
the pet-count attribute. -/
def maxPetsStep (reply : Option String) (am : String → Option String)
    (now : Nat) (db : DB) (stats : Stats) (hid : String) (raw : RawVal) :
    DB × Stats :=
  match normalize_int raw with
  | some n =>
    if n ≤ 10 then
      process_attr reply am now db stats hid "max_pets_allowed" raw
        (some (.ni n)) "int" Option.none
    else
      process_attr reply am now db stats hid "max_weight_lbs" raw
        (some (.ni n)) "int" Option.none
  | Option.none =>
    if raw ≠ .none then
      process_attr reply am now db stats hid "max_pets_allowed" raw
        Option.none "int" Option.none
    else (db, stats)

/-- The breed-restrictions section of `transfer_attributes` (lines 881-890):
a non-empty tag list from the normalizer is filtered against `BREED_TAGS`
and processed; otherwise any truthy raw value is escalated to the LLM path
with a `None` normalizer result. -/
def breedsStep (reply : Option String) (am : String → Option String)
    (now : Nat) (db : DB) (stats : Stats) (hid : String) (raw : RawVal) :
    DB × Stats :=
  match normalize_breeds raw with
  | some tags =>
    if tags.isEmpty then
      if truthy raw then
        process_attr reply am now db stats hid "breed_restrictions" raw
          Option.none "list[str]" (some BREED_TAGS)
      else (db, stats)
    else
      let valid := tags.filter (fun t => BREED_TAGS.contains t)
      process_attr reply am now db stats hid "breed_restrictions" raw
        (if valid.isEmpty then Option.none else some (.narr (list_to_pg_arr valid)))
        "list[str]" (some BREED_TAGS)
  | Option.none =>
    if truthy raw then
      process_attr reply am now db stats hid "breed_restrictions" raw
        Option.none "list[str]" (some BREED_TAGS)
    else (db, stats)

/-- Tri-state classification of `src/llm/models.py` (line 11). -/
inductive ExtractionStatus where
  | present
  | explicit_none
  | not_mentioned
deriving DecidableEq

/-- Embedding of the `NullableBool` pydantic model (`src/llm/models.py` line
36): a plain record of a status and an optional value. The source declares
no validator, so construction is exactly record formation — the schema text
"Must be null if status is 'explicit_none' or 'not_mentioned'" is
documentation only. -/
structure NullableBool where
  status : ExtractionStatus
  value : Option Bool
deriving DecidableEq

/-- Generic form of the `NullableField` model (`src/llm/models.py` line 17),
likewise validator-free. -/
structure NullableField (T : Type) where
  status : ExtractionStatus
  value : Option T
deriving DecidableEq

/-! ### Helper lemmas about the upsert operation -/

/-- Every row present after an upsert is either an untouched pre-existing
row or carries exactly the field values of this call: the resolved
attribute type, all five value columns from the arguments, the derived
confidence, the enabled gate, and the two flags. -/
theorem upsert_attr_mem {am : String → Option String} {now : Nat} {db : DB}
    {hid an : String} {v : Option String} {vb : Option Bool} {vi : Option Int}
    {vn : Option ℚ} {va : Option String} {inull iinv : Bool} :
    ∀ r ∈ (upsert_attr am now db hid an v vb vi vn va inull iinv).1.rows,
      r ∈ db.rows ∨
        (am an = some r.attribute_type_id ∧ r.hotel_id = hid ∧
         r.generated_by = "web-scraper" ∧
         r.value = dbValueOf (ATTR_DATA_TYPES an) v vb vi vn ∧
         r.value_bool = vb ∧ r.value_int = vi ∧ r.value_num = vn ∧
         r.value_arr = va ∧ r.confidence = confOf iinv ∧
         r.enabled = !iinv ∧ r.is_null = inull ∧ r.is_invalid = iinv) := by
  intro r hr
  unfold upsert_attr at hr
  cases ham : am an with
  | none => rw [ham] at hr; exact Or.inl hr
  | some atid =>
    rw [ham] at hr
    simp only at hr
    split at hr
    · simp only [List.mem_map] at hr
      obtain ⟨r0, hr0, hEq⟩ := hr
      by_cases hm : matchesKey hid atid r0 = true
      · right
        rw [if_pos hm] at hEq
        subst hEq
        unfold matchesKey at hm
        simp only [Bool.and_eq_true, beq_iff_eq] at hm
        refine ⟨?_, ?_, ?_, ?_, ?_, ?_, ?_, ?_, ?_, ?_, ?_, ?_⟩ <;>
          simp [updateRow, hm.1.1.1, hm.1.1.2, hm.1.2, ham]
      · rw [if_neg hm] at hEq
        subst hEq
        exact Or.inl hr0
    · rcases List.mem_append.mp hr with h | h
      · exact Or.inl h
      · right
        rcases List.mem_singleton.mp h with rfl
        refine ⟨?_, ?_, ?_, ?_, ?_, ?_, ?_, ?_, ?_, ?_, ?_, ?_⟩ <;>
          simp [insertRow, ham]

/-- When the attribute resolves, the upsert always leaves at least one row
carrying this call's field values (the updated row or the inserted one). -/
theorem upsert_attr_written {am : String → Option String} {now : Nat}
    {db : DB} {hid an : String} {v : Option String} {vb : Option Bool}
    {vi : Option Int} {vn : Option ℚ} {va : Option String}
    {inull iinv : Bool} {atid : String} (ham : am an = some atid) :
    ∃ r ∈ (upsert_attr am now db hid an v vb vi vn va inull iinv).1.rows,
      r.attribute_type_id = atid ∧ r.hotel_id = hid ∧
      r.value = dbValueOf (ATTR_DATA_TYPES an) v vb vi vn ∧
      r.value_bool = vb ∧ r.value_int = vi ∧ r.value_num = vn ∧
      r.value_arr = va ∧ r.confidence = confOf iinv ∧
      r.enabled = !iinv ∧ r.is_null = inull ∧ r.is_invalid = iinv := by
  unfold upsert_attr
  rw [ham]
  simp only
  split
  · next hlen =>
    have hne : db.rows.filter (matchesKey hid atid) ≠ [] := by
      intro hnil; rw [hnil] at hlen; simp at hlen
    obtain ⟨r0, hr0⟩ := List.exists_mem_of_ne_nil _ hne
    have hr0' := List.mem_filter.mp hr0
    refine ⟨updateRow now (dbValueOf (ATTR_DATA_TYPES an) v vb vi vn) vb vi vn
      va inull iinv r0, ?_, ?_⟩
    · exact List.mem_map.mpr ⟨r0, hr0'.1, by rw [if_pos hr0'.2]⟩
    · unfold matchesKey at hr0'
      have hm := hr0'.2
      simp only [Bool.and_eq_true, beq_iff_eq] at hm
      refine ⟨?_, ?_, ?_, ?_, ?_, ?_, ?_, ?_, ?_, ?_, ?_⟩ <;>
        simp [updateRow, hm.1.1.1, hm.1.1.2]
  · refine ⟨insertRow now db.nextId hid atid
      (dbValueOf (ATTR_DATA_TYPES an) v vb vi vn) vb vi vn va inull iinv,
      ?_, ?_⟩
    · exact List.mem_append_right _ (List.mem_singleton.mpr rfl)
    · refine ⟨?_, ?_, ?_, ?_, ?_, ?_, ?_, ?_, ?_, ?_, ?_⟩ <;> simp [insertRow]

/-- A row matched by the scoped update key still matches after a valid
(`is_invalid = false`) update: the key columns are untouched and the row
stays enabled. -/
theorem matchesKey_updateRow {hid atid : String} {now : Nat}
    {dbv : Option String} {vb : Option Bool} {vi : Option Int} {vn : Option ℚ}
    {va : Option String} {inull : Bool} {r : Row}
    (h : matchesKey hid atid r = true) :
    matchesKey hid atid (updateRow now dbv vb vi vn va inull false r) = true := by
  simp only [matchesKey, updateRow, Bool.and_eq_true, beq_iff_eq] at h ⊢
  exact ⟨⟨⟨h.1.1.1, h.1.1.2⟩, h.1.2⟩, rfl⟩

/-- Applying the same SET list twice is the same as applying it once. -/
theorem updateRow_updateRow {now : Nat} {dbv : Option String}
    {vb : Option Bool} {vi : Option Int} {vn : Option ℚ} {va : Option String}
    {inull iinv : Bool} {r : Row} :
    updateRow now dbv vb vi vn va inull iinv
        (updateRow now dbv vb vi vn va inull iinv r) =
      updateRow now dbv vb vi vn va inull iinv r := rfl

/-- Applying the SET list of a valid write to the row just inserted by the
same call changes nothing. -/
theorem updateRow_insertRow {now : Nat} {freshId : Nat} {hid atid : String}
    {dbv : Option String} {vb : Option Bool} {vi : Option Int} {vn : Option ℚ}
    {va : Option String} {inull : Bool} :
    updateRow now dbv vb vi vn va inull false
        (insertRow now freshId hid atid dbv vb vi vn va inull false) =
      insertRow now freshId hid atid dbv vb vi vn va inull false := rfl

/-! ### Claim theorems -/

/-- Reduction of the resolution policy when the normalizer produced an
integer: it is exactly an upsert into the `value_int` slot. -/
theorem process_attr_norm_int (reply : Option String)
    (am : String → Option String) (now : Nat) (db : DB) (stats : Stats)
    (hid an : String) (raw : RawVal) (n : Int) :
    process_attr reply am now db stats hid an raw (some (.ni n)) "int"
        Option.none =
      ((upsert_attr am now db hid an Option.none Option.none (some n)
          Option.none Option.none false false).1,
       bumpWrite stats (upsert_attr am now db hid an Option.none Option.none
          (some n) Option.none Option.none false false).2) := rfl

/-- C10: a pet-deposit raw value that normalizes to exactly 0 is silently
dropped: the deposit step leaves the store and every counter (including
`llm_calls`) unchanged — no typed row, no explicit-null row, no invalid row,
no LLM call. -/
theorem C10_zero_deposit_dropped (reply : Option String)
    (am : String → Option String) (now : Nat) (db : DB) (stats : Stats)
    (hid : String) (raw : RawVal) (h : normalize_float raw = some 0) :
    depositStep reply am now db stats hid raw = (db, stats) := by
  unfold depositStep
  rw [h]
  simp

/-- C10 witness: the concrete deposit `"$0.00"` normalizes to 0 and is
dropped. -/
theorem C10_zero_deposit_dropped_witness :
    depositStep Option.none ATTR_MAP 7 emptyDB emptyStats "h1"
      (.vStr "$0.00") = (emptyDB, emptyStats) :=
  C10_zero_deposit_dropped Option.none ATTR_MAP 7 emptyDB emptyStats "h1"
    (.vStr "$0.00") (by decide)

/-- C7: magnitude disambiguation of the raw max-pets field, after
normalization and before persistence. A parsed value of at most 10 is
processed under `max_pets_allowed`; a larger one is processed under
`max_weight_lbs` instead — rows of the pet-count attribute are untouched
and a weight row carrying the parsed value is persisted. -/
theorem C7_magnitude_reclassification (reply : Option String) (now : Nat)
    (db : DB) (stats : Stats) (hid : String) (raw : RawVal) (n : Int)
    (h : normalize_int raw = some n) :
    (n ≤ 10 → maxPetsStep reply ATTR_MAP now db stats hid raw =
      process_attr reply ATTR_MAP now db stats hid "max_pets_allowed" raw
        (some (.ni n)) "int" Option.none) ∧
    (10 < n →
      maxPetsStep reply ATTR_MAP now db stats hid raw =
        process_attr reply ATTR_MAP now db stats hid "max_weight_lbs" raw
          (some (.ni n)) "int" Option.none ∧
      (∀ r ∈ (maxPetsStep reply ATTR_MAP now db stats hid raw).1.rows,
        r.attribute_type_id = "26f8aae7-1a20-4683-b8ea-d877db9f0cd9" →
          r ∈ db.rows) ∧
      (∃ r ∈ (maxPetsStep reply ATTR_MAP now db stats hid raw).1.rows,
        r.attribute_type_id = "03a7571a-db77-4c99-9a24-87a8cba0f5a9" ∧
        r.value_int = some n ∧ r.is_invalid = false ∧ r.enabled = true)) := by
  have hstep : ¬ n ≤ 10 → maxPetsStep reply ATTR_MAP now db stats hid raw =
      process_attr reply ATTR_MAP now db stats hid "max_weight_lbs" raw
        (some (.ni n)) "int" Option.none := by
    intro hgt
    simp only [maxPetsStep, h]
    rw [if_neg hgt]
  constructor
  · intro hle
    simp only [maxPetsStep, h]
    rw [if_pos hle]
  · intro hgt
    have hs := hstep (not_le.mpr hgt)
    refine ⟨hs, ?_, ?_⟩
    · intro r hr hat
      rw [hs, process_attr_norm_int] at hr
      rcases upsert_attr_mem r hr with hold | hnew
      · exact hold
      · exfalso
        have := hnew.1
        rw [hat] at this
        simp [ATTR_MAP] at this
    · obtain ⟨r, hrm, hprops⟩ :=
        @upsert_attr_written ATTR_MAP now db hid "max_weight_lbs"
          Option.none Option.none (some n) Option.none Option.none
          false false "03a7571a-db77-4c99-9a24-87a8cba0f5a9" rfl
      refine ⟨r, ?_, hprops.1, hprops.2.2.2.2.1, hprops.2.2.2.2.2.2.2.2.2.2, ?_⟩
      · rw [hs, process_attr_norm_int]
        exact hrm
      · rw [hprops.2.2.2.2.2.2.2.2.1]
        rfl

/-- C7 witness: `"15 lbs max"` parses to 15 > 10 and is persisted under the
weight attribute. -/
theorem C7_magnitude_reclassification_witness :
    maxPetsStep Option.none ATTR_MAP 0 emptyDB emptyStats "h1"
        (.vStr "15 lbs max") =
      process_attr Option.none ATTR_MAP 0 emptyDB emptyStats "h1"
        "max_weight_lbs" (.vStr "15 lbs max") (some (.ni 15)) "int"
        Option.none ∧
    (∃ r ∈ (maxPetsStep Option.none ATTR_MAP 0 emptyDB emptyStats "h1"
        (.vStr "15 lbs max")).1.rows,
      r.attribute_type_id = "03a7571a-db77-4c99-9a24-87a8cba0f5a9" ∧
      r.value_int = some 15 ∧ r.is_invalid = false ∧ r.enabled = true) := by
  have h := C7_magnitude_reclassification Option.none 0 emptyDB emptyStats
    "h1" (.vStr "15 lbs max") 15 (by decide)
  obtain ⟨hs, -, hex⟩ := h.2 (by decide)
  exact ⟨hs, hex⟩

/-- C1, amended: the fee ceiling applies to the normalizer's output only.
When the raw fee (`pet_fee_night` with `pet_fee_total_max` fallback)
normalizes to a value above 1000, the fee step never invokes the LLM
fallback, touches no attribute other than `pet_fee_amount`, and persists
`pet_fee_amount` with `is_invalid = true`: a row under the pet-fee
attribute type with confidence 0, enabled false and every value column
null is present in the resulting store (updated in place or freshly
inserted), and every row the step wrote has that invalid shape. -/
theorem C1_normalizer_fee_cap (reply : Option String) (now : Nat) (db : DB)
    (stats : Stats) (hid : String) (row2 row3 : RawVal) (fv : ℚ)
    (h : normalize_float (pyOr row2 row3) = some fv) (hgt : fv > 1000) :
    (feeStep reply ATTR_MAP now db stats hid row2 row3).2.llm_calls =
      stats.llm_calls ∧
    (∀ r ∈ (feeStep reply ATTR_MAP now db stats hid row2 row3).1.rows,
      r ∈ db.rows ∨
      (ATTR_MAP "pet_fee_amount" = some r.attribute_type_id ∧
       r.is_invalid = true ∧ r.confidence = 0 ∧ r.enabled = false ∧
       r.value = Option.none ∧ r.value_bool = Option.none ∧
       r.value_int = Option.none ∧ r.value_num = Option.none ∧
       r.value_arr = Option.none)) ∧
    (∃ r ∈ (feeStep reply ATTR_MAP now db stats hid row2 row3).1.rows,
      r.attribute_type_id = "c86a1fb4-455d-48b3-aeca-4a73cbe6438e" ∧
      r.hotel_id = hid ∧ r.is_invalid = true ∧ r.confidence = 0 ∧
      r.enabled = false ∧ r.value = Option.none ∧
      r.value_bool = Option.none ∧ r.value_int = Option.none ∧
      r.value_num = Option.none ∧ r.value_arr = Option.none) := by
  have hred : feeStep reply ATTR_MAP now db stats hid row2 row3 =
      ((upsert_attr ATTR_MAP now db hid "pet_fee_amount" Option.none
          Option.none Option.none Option.none Option.none false true).1,
       if (upsert_attr ATTR_MAP now db hid "pet_fee_amount" Option.none
            Option.none Option.none Option.none Option.none false true).2 =
              "updated" ||
          (upsert_attr ATTR_MAP now db hid "pet_fee_amount" Option.none
            Option.none Option.none Option.none Option.none false true).2 =
              "inserted" then
         { stats with invalid := stats.invalid + 1 }
       else stats) := by
    simp only [feeStep, h]
    rw [if_pos hgt]
  rw [hred]
  refine ⟨?_, ?_, ?_⟩
  · split <;> rfl
  · intro r hr
    rcases upsert_attr_mem r hr with hold | hnew
    · exact Or.inl hold
    · right
      obtain ⟨h1, -, -, h4, h5, h6, h7, h8, h9, h10, -, h12⟩ := hnew
      refine ⟨by rw [← h1], h12, ?_, ?_, ?_, h5, h6, h7, h8⟩
      · rw [h9]; rfl
      · rw [h10]; rfl
      · rw [h4]; rfl
  · obtain ⟨r, hrm, hat, hhid, hval, hvb, hvi, hvn, hva, hconf, hen, -, hinv⟩ :=
      @upsert_attr_written ATTR_MAP now db hid "pet_fee_amount" Option.none
        Option.none Option.none Option.none Option.none false true
        "c86a1fb4-455d-48b3-aeca-4a73cbe6438e" rfl
    refine ⟨r, hrm, hat, hhid, hinv, ?_, ?_, ?_, hvb, hvi, hvn, hva⟩
    · rw [hconf]; rfl
    · rw [hen]; rfl
    · rw [hval]; rfl

/-- C1 witness: a normalized fee of 1500 (> 1000) is force-marked invalid —
an invalid pet-fee row is persisted — without an LLM call. -/
theorem C1_normalizer_fee_cap_witness :
    (feeStep Option.none ATTR_MAP 0 emptyDB emptyStats "h1"
        (.vStr "$1500.00") .none).2.llm_calls = emptyStats.llm_calls ∧
    ∃ r ∈ (feeStep Option.none ATTR_MAP 0 emptyDB emptyStats "h1"
        (.vStr "$1500.00") .none).1.rows,
      r.attribute_type_id = "c86a1fb4-455d-48b3-aeca-4a73cbe6438e" ∧
      r.hotel_id = "h1" ∧ r.is_invalid = true ∧ r.confidence = 0 ∧
      r.enabled = false ∧ r.value = Option.none ∧
      r.value_bool = Option.none ∧ r.value_int = Option.none ∧
      r.value_num = Option.none ∧ r.value_arr = Option.none :=
  ⟨(C1_normalizer_fee_cap Option.none 0 emptyDB emptyStats "h1"
      (.vStr "$1500.00") .none 1500 (by decide) (by decide)).1,
   (C1_normalizer_fee_cap Option.none 0 emptyDB emptyStats "h1"
      (.vStr "$1500.00") .none 1500 (by decide) (by decide)).2.2⟩

/-- C1, counterexample to the claim as stated: a fee the normalizer cannot
parse escalates to the LLM fallback, and an LLM reply of `"1500"` is then
persisted as the typed value 1500 > 1000 with `is_invalid = false` after
one LLM call — the ceiling is not enforced on the LLM extraction path. -/
theorem C1_llm_fee_above_cap_persisted :
    (1500 : ℚ) > 1000 ∧
    (feeStep (some "1500") ATTR_MAP 0 emptyDB emptyStats "h1"
        (.vStr "expensive") .none).2.llm_calls = 1 ∧
    (feeStep (some "1500") ATTR_MAP 0 emptyDB emptyStats "h1"
        (.vStr "expensive") .none).1.rows.map
      (fun r => (r.value_num, r.is_invalid, r.enabled, r.confidence)) =
      [(some 1500, false, true, mkRat 85 100)] := by decide

/-- C2, amended: replay is idempotent for valid writes. Re-running the
upsert with identical arguments and `is_invalid = false` leaves the store
exactly as after the first run — the same rows in place, no duplicate, so
confidence, enabled, is_null and is_invalid are unchanged — and the second
run reports `updated` (or `skipped` when the attribute is unresolvable). -/
theorem C2_valid_replay_idempotent (am : String → Option String) (now : Nat)
    (db : DB) (hid an : String) (v : Option String) (vb : Option Bool)
    (vi : Option Int) (vn : Option ℚ) (va : Option String) (inull : Bool) :
    upsert_attr am now
        (upsert_attr am now db hid an v vb vi vn va inull false).1
        hid an v vb vi vn va inull false =
      ((upsert_attr am now db hid an v vb vi vn va inull false).1,
       match am an with
       | Option.none => "skipped"
       | some _ => "updated") := by
  cases ham : am an with
  | none => unfold upsert_attr; rw [ham]
  | some atid =>
    unfold upsert_attr
    rw [ham]
    simp only
    by_cases hlen : (db.rows.filter (matchesKey hid atid)).length > 0
    · rw [if_pos hlen]
      simp only
      have hex : ∃ r0 ∈ db.rows, matchesKey hid atid r0 = true := by
        rcases List.exists_mem_of_ne_nil (db.rows.filter (matchesKey hid atid))
          (by intro hnil; rw [hnil] at hlen; simp at hlen) with ⟨r0, hr0⟩
        exact ⟨r0, (List.mem_filter.mp hr0).1, (List.mem_filter.mp hr0).2⟩
      obtain ⟨r0, hr0m, hr0k⟩ := hex
      have hmem2 : updateRow now (dbValueOf (ATTR_DATA_TYPES an) v vb vi vn)
          vb vi vn va inull false r0 ∈
          (db.rows.map fun r => if matchesKey hid atid r = true then
            updateRow now (dbValueOf (ATTR_DATA_TYPES an) v vb vi vn)
              vb vi vn va inull false r else r) :=
        List.mem_map.mpr ⟨r0, hr0m, by rw [if_pos hr0k]⟩
      have hlen2 : ((db.rows.map fun r => if matchesKey hid atid r = true then
          updateRow now (dbValueOf (ATTR_DATA_TYPES an) v vb vi vn)
            vb vi vn va inull false r else r).filter
              (matchesKey hid atid)).length > 0 :=
        List.length_pos.mpr (List.ne_nil_of_mem
          (List.mem_filter.mpr ⟨hmem2, matchesKey_updateRow hr0k⟩))
      rw [if_pos hlen2]
      congr 1
      congr 1
      rw [List.map_map]
      apply List.map_congr_left
      intro r hr
      by_cases hk : matchesKey hid atid r = true
      · simp only [Function.comp_apply, if_pos hk,
          if_pos (matchesKey_updateRow hk), updateRow_updateRow]
      · simp only [Function.comp_apply, if_neg hk]
    · rw [if_neg hlen]
      simp only
      have hall : ∀ r ∈ db.rows, ¬ matchesKey hid atid r = true := by
        intro r hr hk
        exact hlen (List.length_pos.mpr (List.ne_nil_of_mem
          (List.mem_filter.mpr ⟨hr, hk⟩)))
      have hnrk : matchesKey hid atid
          (insertRow now db.nextId hid atid
            (dbValueOf (ATTR_DATA_TYPES an) v vb vi vn)
            vb vi vn va inull false) = true := by
        simp [matchesKey, insertRow]
      have hlen2 : (((db.rows ++ [insertRow now db.nextId hid atid
          (dbValueOf (ATTR_DATA_TYPES an) v vb vi vn)
          vb vi vn va inull false]).filter
            (matchesKey hid atid)).length) > 0 := by
        apply List.length_pos.mpr
        apply List.ne_nil_of_mem
        apply List.mem_filter.mpr
        exact ⟨List.mem_append_right _ (List.mem_singleton.mpr rfl), hnrk⟩
      rw [if_pos hlen2]
      congr 1
      congr 1
      rw [List.map_append]
      congr 1
      · conv_rhs => rw [← List.map_id db.rows]
        apply List.map_congr_left
        intro r hr
        rw [if_neg (hall r hr)]
        rfl
      · simp only [List.map_cons, List.map_nil, if_pos hnrk,
          updateRow_insertRow]

/-- C2, counterexample to the claim as stated: an `is_invalid` write
disables its row while the update scope requires `enabled = true`, so
replaying the same invalid write re-INSERTs instead of updating in place,
leaving two disabled invalid rows. -/
theorem C2_invalid_replay_duplicates :
    (upsert_attr ATTR_MAP 0 emptyDB "h1" "pet_fee_amount" Option.none
      Option.none Option.none Option.none Option.none false true).1.rows.length
      = 1 ∧
    (upsert_attr ATTR_MAP 0
      (upsert_attr ATTR_MAP 0 emptyDB "h1" "pet_fee_amount" Option.none
        Option.none Option.none Option.none Option.none false true).1
      "h1" "pet_fee_amount" Option.none Option.none Option.none Option.none
      Option.none false true).2 = "inserted" ∧
    (upsert_attr ATTR_MAP 0
      (upsert_attr ATTR_MAP 0 emptyDB "h1" "pet_fee_amount" Option.none
        Option.none Option.none Option.none Option.none false true).1
      "h1" "pet_fee_amount" Option.none Option.none Option.none Option.none
      Option.none false true).1.rows.map
        (fun r => (r.enabled, r.is_invalid, r.confidence)) =
      [(false, true, 0), (false, true, 0)] := by decide

/-- A character list without digits has no digit run. -/
theorem firstDigitRun_eq_none {l : List Char}
    (h : ∀ c ∈ l, c.isDigit = false) : firstDigitRun l = Option.none := by
  induction l with
  | nil => rfl
  | cons c cs ih =>
    unfold firstDigitRun
    rw [if_neg (by rw [h c (List.mem_cons_self c cs)]; exact Bool.false_ne_true)]
    exact ih (fun x hx => h x (List.mem_cons_of_mem c hx))

/-- Stripping only removes characters: members of the stripped list were
members of the original. -/
theorem mem_of_mem_trimChars {c : Char} {l : List Char}
    (h : c ∈ trimChars l) : c ∈ l := by
  unfold trimChars at h
  rw [List.mem_reverse] at h
  have h1 := (List.dropWhile_sublist _).subset h
  rw [List.mem_reverse] at h1
  exact (List.dropWhile_sublist _).subset h1

/-- C6, amended: the integer normalizer parses the first unsigned digit run
of the stripped string form (any sign character is ignored), returns `None`
when no digit occurs — `"$75 per night"` gives 75, `"no limit"` gives
`None` — passes ints through unchanged, and truncates floats toward zero;
being a total function it never throws. -/
theorem C6_normalize_int_unsigned :
    normalize_int (.vStr "$75 per night") = some 75 ∧
    normalize_int (.vStr "no limit") = Option.none ∧
    (∀ n : Int, normalize_int (.vInt n) = some n) ∧
    (∀ q : ℚ, normalize_int (.vFloat q) = some (q.num.tdiv q.den)) ∧
    (∀ s : String, (∀ c ∈ s.data, c.isDigit = false) →
      normalize_int (.vStr s) = Option.none) := by
  refine ⟨by decide, by decide, fun n => rfl, fun q => rfl, ?_⟩
  intro s hs
  simp only [normalize_int,
    firstDigitRun_eq_none (fun c hc => hs c (mem_of_mem_trimChars hc))]
  rfl

/-- C6 witness: a digit-free string normalizes to `None`. -/
theorem C6_normalize_int_unsigned_witness :
    normalize_int (.vStr "no limit higher than ten") = Option.none :=
  C6_normalize_int_unsigned.2.2.2.2 "no limit higher than ten" (by decide)

/-- C6, counterexample to the claim as stated: on `"-5"` the
optionally-signed parse the claim describes (the same semantics the LLM int
branch uses) yields -5, but `normalize_int` searches the unsigned pattern
and yields 5. -/
theorem C6_signed_input_parsed_unsigned :
    normalize_int (.vStr "-5") = some 5 ∧
    firstSignedIntRun "-5".data = some (-5) ∧ ¬ ((5 : Int) = -5) := by decide

/-- C8: the tri-state models perform no enforcement at the model boundary.
Constructing `NullableBool` with status `explicit_none` and a non-null
value succeeds and the value is retained — neither rejected nor normalized
to null; the "must be null" constraint exists only as schema
documentation. -/
theorem C8_tristate_value_retained :
    (NullableBool.mk .explicit_none (some true)).value = some true ∧
    (NullableBool.mk .explicit_none (some true)).status =
      ExtractionStatus.explicit_none ∧
    (NullableField.mk .explicit_none (some (5 : Nat))).value = some 5 :=
  ⟨rfl, rfl, rfl⟩

/-- C3, amended: explicit no-restriction text normalizes to `None`, and the
normalizer path emits a tag-list row only when at least one tag matched;
but because the raw text is non-empty the breeds step escalates it to the
LLM fallback path instead of emitting nothing. -/
theorem C3_no_restriction_escalates (reply : Option String)
    (am : String → Option String) (now : Nat) (db : DB) (stats : Stats)
    (hid : String) (s : String)
    (hskip : pyStrip (pyLower s) ∈ breedSkipSet) (hne : s ≠ "") :
    normalize_breeds (.vStr s) = Option.none ∧
    breedsStep reply am now db stats hid (.vStr s) =
      process_attr reply am now db stats hid "breed_restrictions" (.vStr s)
        Option.none "list[str]" (some BREED_TAGS) ∧
    (∀ raw l, normalize_breeds raw = some l → l ≠ []) := by
  have htr : truthy (.vStr s) = true := by
    simp [truthy]
    exact hne
  have hnone : normalize_breeds (.vStr s) = Option.none := by
    simp only [normalize_breeds, htr, pyStrRaw]
    simp [hskip]
  refine ⟨hnone, ?_, ?_⟩
  · simp only [breedsStep, hnone, htr]
    rfl
  · intro raw l hl
    simp only [normalize_breeds] at hl
    split at hl
    · exact absurd hl (by simp)
    · split at hl
      · exact absurd hl (by simp)
      · split at hl
        · exact absurd hl (by simp)
        · next htags =>
          rw [Option.some.injEq] at hl
          subst hl
          intro hnil
          rw [hnil] at htags
          simp at htags

/-- C3 witness: `"No breed restrictions"` normalizes to `None` and the step
takes the LLM escalation path. -/
theorem C3_no_restriction_escalates_witness :
    normalize_breeds (.vStr "No breed restrictions") = Option.none ∧
    breedsStep Option.none ATTR_MAP 3 emptyDB emptyStats "h1"
        (.vStr "No breed restrictions") =
      process_attr Option.none ATTR_MAP 3 emptyDB emptyStats "h1"
        "breed_restrictions" (.vStr "No breed restrictions") Option.none
        "list[str]" (some BREED_TAGS) := by
  have h := C3_no_restriction_escalates Option.none ATTR_MAP 3 emptyDB
    emptyStats "h1" "No breed restrictions" (by decide) (by decide)
  exact ⟨h.1, h.2.1⟩

/-- C3, counterexample to the claim as stated: on raw
`"No breed restrictions"` the breeds step performs one LLM call and (with
the transport failing) persists an `is_invalid` row — not "no row at all
and no LLM call". -/
theorem C3_no_restriction_invokes_llm :
    (breedsStep Option.none ATTR_MAP 0 emptyDB emptyStats "h1"
        (.vStr "No breed restrictions")).2.llm_calls = 1 ∧
    (breedsStep Option.none ATTR_MAP 0 emptyDB emptyStats "h1"
        (.vStr "No breed restrictions")).1.rows.map
      (fun r => (r.is_invalid, r.enabled, r.confidence)) =
      [(true, false, 0)] := by decide

/-- C4: the upsert contract. An unresolvable attribute name answers
`skipped` and writes nothing; otherwise the UPDATE scoped to (hotel,
attribute type, `generated_by = 'web-scraper'`, enabled) answers `updated`
when at least one row matches, and with no match a fresh row — new identity
from the store's counter, creation and update timestamps set to now — is
INSERTed, answering `inserted`; every written row has confidence 0.85 when
`is_invalid` is false and 0.0 when true, and `enabled` is the negation of
`is_invalid`. -/
theorem C4_upsert_contract (am : String → Option String) (now : Nat)
    (db : DB) (hid an : String) (v : Option String) (vb : Option Bool)
    (vi : Option Int) (vn : Option ℚ) (va : Option String)
    (inull iinv : Bool) :
    (am an = Option.none →
      upsert_attr am now db hid an v vb vi vn va inull iinv =
        (db, "skipped")) ∧
    (∀ atid, am an = some atid →
      ((∃ r ∈ db.rows, matchesKey hid atid r = true) →
        (upsert_attr am now db hid an v vb vi vn va inull iinv).2 =
          "updated" ∧
        (upsert_attr am now db hid an v vb vi vn va inull iinv).1.rows.length
          = db.rows.length) ∧
      ((∀ r ∈ db.rows, matchesKey hid atid r = false) →
        (upsert_attr am now db hid an v vb vi vn va inull iinv).2 =
          "inserted" ∧
        ∃ nr,
          (upsert_attr am now db hid an v vb vi vn va inull iinv).1.rows =
            db.rows ++ [nr] ∧
          nr.id = db.nextId ∧
          (upsert_attr am now db hid an v vb vi vn va inull iinv).1.nextId =
            db.nextId + 1 ∧
          nr.created_at = now ∧ nr.updated_at = now ∧
          nr.effective_date = now ∧ nr.hotel_id = hid ∧
          nr.attribute_type_id = atid ∧ nr.generated_by = "web-scraper") ∧
      (∀ r ∈ (upsert_attr am now db hid an v vb vi vn va inull iinv).1.rows,
        r ∈ db.rows ∨
        (r.is_invalid = iinv ∧
         r.confidence = (if r.is_invalid then (0 : ℚ) else mkRat 85 100) ∧
         r.enabled = !r.is_invalid))) := by
  constructor
  · intro h
    unfold upsert_attr
    rw [h]
  · intro atid ham
    refine ⟨?_, ?_, ?_⟩
    · rintro ⟨r0, hr0, hk⟩
      have hlen : (db.rows.filter (matchesKey hid atid)).length > 0 :=
        List.length_pos.mpr (List.ne_nil_of_mem (List.mem_filter.mpr ⟨hr0, hk⟩))
      unfold upsert_attr
      rw [ham]
      simp only
      rw [if_pos hlen]
      exact ⟨rfl, by simp⟩
    · intro hall
      have hnil : db.rows.filter (matchesKey hid atid) = [] :=
        List.filter_eq_nil_iff.mpr (fun r hr => by rw [hall r hr]; exact
          Bool.false_ne_true)
      unfold upsert_attr
      rw [ham]
      simp only
      rw [if_neg (by rw [hnil]; simp)]
      refine ⟨rfl,
        insertRow now db.nextId hid atid
          (dbValueOf (ATTR_DATA_TYPES an) v vb vi vn) vb vi vn va inull iinv,
        rfl, rfl, rfl, rfl, rfl, rfl, rfl, rfl, rfl⟩
    · intro r hr
      rcases upsert_attr_mem r hr with hold | hnew
      · exact Or.inl hold
      · right
        obtain ⟨-, -, -, -, -, -, -, -, hconf, hen, -, hinv⟩ := hnew
        refine ⟨hinv, ?_, ?_⟩
        · rw [hconf, hinv]
          rfl
        · rw [hen, hinv]

/-- C4 witness: an unknown attribute is skipped on the empty store, and a
resolvable one with no matching row is inserted. -/
theorem C4_upsert_contract_witness :
    upsert_attr ATTR_MAP 4 emptyDB "h1" "unknown_attribute" Option.none
      Option.none Option.none Option.none Option.none false false =
      (emptyDB, "skipped") ∧
    (upsert_attr ATTR_MAP 4 emptyDB "h1" "is_pet_friendly" Option.none
      (some true) Option.none Option.none Option.none false false).2 =
      "inserted" := by
  constructor
  · exact (C4_upsert_contract ATTR_MAP 4 emptyDB "h1" "unknown_attribute"
      Option.none Option.none Option.none Option.none Option.none false
      false).1 rfl
  · exact (((C4_upsert_contract ATTR_MAP 4 emptyDB "h1" "is_pet_friendly"
      Option.none (some true) Option.none Option.none Option.none false
      false).2 "09a1c66f-a780-4ba2-99e3-feaeea25d41d" rfl).2.1
      (by decide)).1

/-- C9: every upsert write assigns all five value columns at once from the
call's arguments, so no row mixes stale and fresh typed columns; when
exactly one typed slot matching the attribute's declared kind is supplied,
the written row carries that slot with nulls elsewhere and the free-text
mirror holds the value's string form for bool/int/float, null for tag
lists, and the value itself for the string kind. -/
theorem C9_single_slot_full_write (am : String → Option String) (now : Nat)
    (db : DB) (hid an : String) (v : Option String) (vb : Option Bool)
    (vi : Option Int) (vn : Option ℚ) (va : Option String)
    (inull iinv : Bool) :
    (∀ r ∈ (upsert_attr am now db hid an v vb vi vn va inull iinv).1.rows,
      r ∈ db.rows ∨
      (r.value = dbValueOf (ATTR_DATA_TYPES an) v vb vi vn ∧
       r.value_bool = vb ∧ r.value_int = vi ∧ r.value_num = vn ∧
       r.value_arr = va)) ∧
    (∀ b, ATTR_DATA_TYPES an = "bool" → vb = some b → vi = Option.none →
      vn = Option.none → va = Option.none →
      ∀ r ∈ (upsert_attr am now db hid an v vb vi vn va inull iinv).1.rows,
        r ∈ db.rows ∨
        (r.value = some (pyStrBool b) ∧ r.value_bool = some b ∧
         r.value_int = Option.none ∧ r.value_num = Option.none ∧
         r.value_arr = Option.none)) ∧
    (∀ n, ATTR_DATA_TYPES an = "int" → vi = some n → vb = Option.none →
      vn = Option.none → va = Option.none →
      ∀ r ∈ (upsert_attr am now db hid an v vb vi vn va inull iinv).1.rows,
        r ∈ db.rows ∨
        (r.value = some (toString n) ∧ r.value_bool = Option.none ∧
         r.value_int = some n ∧ r.value_num = Option.none ∧
         r.value_arr = Option.none)) ∧
    (∀ q, ATTR_DATA_TYPES an = "float" → vn = some q → vb = Option.none →
      vi = Option.none → va = Option.none →
      ∀ r ∈ (upsert_attr am now db hid an v vb vi vn va inull iinv).1.rows,
        r ∈ db.rows ∨
        (r.value = some (floatStr q) ∧ r.value_bool = Option.none ∧
         r.value_int = Option.none ∧ r.value_num = some q ∧
         r.value_arr = Option.none)) ∧
    (∀ a, ATTR_DATA_TYPES an = "list[str]" → va = some a →
      vb = Option.none → vi = Option.none → vn = Option.none →
      ∀ r ∈ (upsert_attr am now db hid an v vb vi vn va inull iinv).1.rows,
        r ∈ db.rows ∨
        (r.value = Option.none ∧ r.value_bool = Option.none ∧
         r.value_int = Option.none ∧ r.value_num = Option.none ∧
         r.value_arr = some a)) ∧
    (∀ s, ATTR_DATA_TYPES an = "str" → v = some s → vb = Option.none →
      vi = Option.none → vn = Option.none → va = Option.none →
      ∀ r ∈ (upsert_attr am now db hid an v vb vi vn va inull iinv).1.rows,
        r ∈ db.rows ∨
        (r.value = some s ∧ r.value_bool = Option.none ∧
         r.value_int = Option.none ∧ r.value_num = Option.none ∧
         r.value_arr = Option.none)) := by
  refine ⟨?_, ?_, ?_, ?_, ?_, ?_⟩
  · intro r hr
    rcases upsert_attr_mem r hr with hold | hnew
    · exact Or.inl hold
    · exact Or.inr ⟨hnew.2.2.2.1, hnew.2.2.2.2.1, hnew.2.2.2.2.2.1,
        hnew.2.2.2.2.2.2.1, hnew.2.2.2.2.2.2.2.1⟩
  · intro b hdt hvb hvi hvn hva r hr
    subst hvb hvi hvn hva
    rcases upsert_attr_mem r hr with hold | hnew
    · exact Or.inl hold
    · refine Or.inr ⟨?_, hnew.2.2.2.2.1, hnew.2.2.2.2.2.1,
        hnew.2.2.2.2.2.2.1, hnew.2.2.2.2.2.2.2.1⟩
      rw [hnew.2.2.2.1, hdt]
      simp [dbValueOf]
  · intro n hdt hvi hvb hvn hva r hr
    subst hvi hvb hvn hva
    rcases upsert_attr_mem r hr with hold | hnew
    · exact Or.inl hold
    · refine Or.inr ⟨?_, hnew.2.2.2.2.1, hnew.2.2.2.2.2.1,
        hnew.2.2.2.2.2.2.1, hnew.2.2.2.2.2.2.2.1⟩
      rw [hnew.2.2.2.1, hdt]
      simp [dbValueOf]
  · intro q hdt hvn hvb hvi hva r hr
    subst hvn hvb hvi hva
    rcases upsert_attr_mem r hr with hold | hnew
    · exact Or.inl hold
    · refine Or.inr ⟨?_, hnew.2.2.2.2.1, hnew.2.2.2.2.2.1,
        hnew.2.2.2.2.2.2.1, hnew.2.2.2.2.2.2.2.1⟩
      rw [hnew.2.2.2.1, hdt]
      simp [dbValueOf]
  · intro a hdt hva hvb hvi hvn r hr
    subst hva hvb hvi hvn
    rcases upsert_attr_mem r hr with hold | hnew
    · exact Or.inl hold
    · refine Or.inr ⟨?_, hnew.2.2.2.2.1, hnew.2.2.2.2.2.1,
        hnew.2.2.2.2.2.2.1, hnew.2.2.2.2.2.2.2.1⟩
      rw [hnew.2.2.2.1, hdt]
      simp [dbValueOf]
  · intro s hdt hv hvb hvi hvn hva r hr
    subst hv hvb hvi hvn hva
    rcases upsert_attr_mem r hr with hold | hnew
    · exact Or.inl hold
    · refine Or.inr ⟨?_, hnew.2.2.2.2.1, hnew.2.2.2.2.2.1,
        hnew.2.2.2.2.2.2.1, hnew.2.2.2.2.2.2.2.1⟩
      rw [hnew.2.2.2.1, hdt]
      simp [dbValueOf]

/-- C9 witness: a float write of 50.5 fills `value_num` and mirrors its
string form, with the other typed columns null. -/
theorem C9_single_slot_full_write_witness :
    ∀ r ∈ (upsert_attr ATTR_MAP 9 emptyDB "h1" "pet_fee_amount" Option.none
      Option.none Option.none (some (mkRat 505 10)) Option.none false
      false).1.rows,
      r ∈ emptyDB.rows ∨
      (r.value = some (floatStr (mkRat 505 10)) ∧
       r.value_bool = Option.none ∧ r.value_int = Option.none ∧
       r.value_num = some (mkRat 505 10) ∧ r.value_arr = Option.none) :=
  (C9_single_slot_full_write ATTR_MAP 9 emptyDB "h1" "pet_fee_amount"
    Option.none Option.none Option.none (some (mkRat 505 10)) Option.none
    false false).2.2.2.1 (mkRat 505 10) (by decide) rfl rfl rfl rfl

/-- Reduction of the LLM adapter on the tag-list branch with a non-empty
vocabulary. -/
theorem llm_extract_list_reduce (reply an : String) (allowed : List String)
    (hal : allowed ≠ []) :
    llm_extract (some reply) an "list[str]" (some allowed) =
      (if reply = "" then (Option.none, true)
       else if pyUpper (pyStrip reply) = "INVALID" then (Option.none, true)
       else if (((splitComma (pyUpper (pyStrip reply)).data).map
            (fun l => String.mk (trimChars l))).filter
              (fun t => allowed.contains t)).isEmpty then (Option.none, true)
       else (some (.vlist (((splitComma (pyUpper (pyStrip reply)).data).map
            (fun l => String.mk (trimChars l))).filter
              (fun t => allowed.contains t))), false)) := by
  unfold llm_extract
  rw [if_neg (by decide), if_neg (by decide), if_neg (by decide),
      if_neg (by simp), if_neg (by simp), if_pos (by simp [hal])]
  rfl

/-- Reduction of the LLM adapter on the currency branch. -/
theorem llm_extract_currency_reduce (reply : String)
    (at2 : Option (List String)) :
    llm_extract (some reply) "pet_fee_currency" "str" at2 =
      (if reply = "" then (Option.none, true)
       else if (pyLower (pyStrip reply) = "invalid" ||
           (pyLower (pyStrip reply)).length ≠ 3) then (Option.none, true)
       else (some (.vs (pyLower (pyStrip reply))), false)) := by
  unfold llm_extract
  rw [if_neg (by decide), if_neg (by decide), if_neg (by decide),
      if_pos (by simp)]

/-- Reduction of the LLM adapter on the fee-interval branch. -/
theorem llm_extract_interval_reduce (reply : String)
    (at2 : Option (List String)) :
    llm_extract (some reply) "pet_fee_interval" "str" at2 =
      (if reply = "" then (Option.none, true)
       else if pyLower (pyStrip reply) ∈ ALLOWED_INTERVALS then
         (some (.vs (pyLower (pyStrip reply))), false)
       else (Option.none, true)) := by
  unfold llm_extract
  rw [if_neg (by decide), if_neg (by decide), if_neg (by decide),
      if_neg (by simp), if_pos (by simp)]

/-- C5, amended: for tag-constrained kinds the adapter only ever returns
tags drawn from the allowed vocabulary and an empty result after
discarding is invalid (tag lists; the interval branch likewise only returns
members of the allowed set); for the currency attribute a reply is accepted
exactly when, stripped and lowercased, it differs from `invalid` and has
length 3 — the source checks the length only, not that the characters are
alphabetic. -/
theorem C5_vocab_constraints :
    (∀ (reply an : String) (allowed : List String) (out : List String),
      llm_extract (some reply) an "list[str]" (some allowed) =
        (some (.vlist out), false) →
      out ≠ [] ∧ ∀ t ∈ out, t ∈ allowed) ∧
    (∀ (reply an : String) (allowed : List String), allowed ≠ [] →
      (((splitComma (pyUpper (pyStrip reply)).data).map
          (fun l => String.mk (trimChars l))).filter
            (fun t => allowed.contains t)) = [] →
      llm_extract (some reply) an "list[str]" (some allowed) =
        (Option.none, true)) ∧
    (∀ (reply : String) (at2 : Option (List String)) (s : String),
      llm_extract (some reply) "pet_fee_interval" "str" at2 =
        (some (.vs s), false) →
      s ∈ ALLOWED_INTERVALS) ∧
    (∀ (reply : String) (at2 : Option (List String)) (s : String),
      llm_extract (some reply) "pet_fee_currency" "str" at2 =
        (some (.vs s), false) ↔
      (reply ≠ "" ∧ s = pyLower (pyStrip reply) ∧
       pyLower (pyStrip reply) ≠ "invalid" ∧
       (pyLower (pyStrip reply)).length = 3)) := by
  refine ⟨?_, ?_, ?_, ?_⟩
  · intro reply an allowed out hEq
    by_cases hal : allowed = []
    · subst hal
      simp [llm_extract] at hEq
    · rw [llm_extract_list_reduce reply an allowed hal] at hEq
      split at hEq
      · exact absurd hEq (by simp)
      · split at hEq
        · exact absurd hEq (by simp)
        · split at hEq
          · exact absurd hEq (by simp)
          · next hemp =>
            rw [Prod.mk.injEq, Option.some.injEq] at hEq
            have hout : (((splitComma (pyUpper (pyStrip reply)).data).map
                (fun l => String.mk (trimChars l))).filter
                  (fun t => allowed.contains t)) = out := by
              have := hEq.1
              injection this
            constructor
            · intro hnil
              rw [hout, hnil] at hemp
              simp at hemp
            · intro t ht
              rw [← hout] at ht
              have := (List.mem_filter.mp ht).2
              exact (List.elem_iff).mp this
  · intro reply an allowed hal hfil
    rw [llm_extract_list_reduce reply an allowed hal]
    by_cases h1 : reply = ""
    · rw [if_pos h1]
    · rw [if_neg h1]
      by_cases h2 : pyUpper (pyStrip reply) = "INVALID"
      · rw [if_pos h2]
      · rw [if_neg h2, if_pos (by rw [hfil]; rfl)]
  · intro reply at2 s hEq
    rw [llm_extract_interval_reduce reply at2] at hEq
    split at hEq
    · exact absurd hEq (by simp)
    · split at hEq
      · next hmem =>
        rw [Prod.mk.injEq, Option.some.injEq] at hEq
        have : pyLower (pyStrip reply) = s := by
          have := hEq.1
          injection this
        rw [← this]
        exact hmem
      · exact absurd hEq (by simp)
  · intro reply at2 s
    rw [llm_extract_currency_reduce reply at2]
    constructor
    · intro hEq
      split at hEq
      · exact absurd hEq (by simp)
      · next h1 =>
        split at hEq
        · exact absurd hEq (by simp)
        · next h2 =>
          rw [Prod.mk.injEq, Option.some.injEq] at hEq
          have hs : pyLower (pyStrip reply) = s := by
            have := hEq.1
            injection this
          rw [Bool.or_eq_true, not_or] at h2
          refine ⟨h1, hs.symm, ?_, ?_⟩
          · intro hc
            exact h2.1 (by simp [hc])
          · by_contra hlen
            exact h2.2 (by simp [hlen])
    · rintro ⟨h1, rfl, h3, h4⟩
      rw [if_neg h1, if_neg (by simp [h3, h4])]

/-- C5 witness: an out-of-vocabulary species tag is discarded while the
in-vocabulary one survives, and the three-letter code `jpy` outside the
allow-list is accepted for currency. -/
theorem C5_vocab_constraints_witness :
    (["PET_TYPE_DOG"] ≠ ([] : List String) ∧
      ∀ t ∈ ["PET_TYPE_DOG"], t ∈ ["PET_TYPE_DOG", "PET_TYPE_CAT"]) ∧
    llm_extract (some "jpy") "pet_fee_currency" "str" Option.none =
      (some (.vs "jpy"), false) :=
  ⟨C5_vocab_constraints.1 "PET_TYPE_DOG, PET_TYPE_UNICORN" "allowed_species"
      ["PET_TYPE_DOG", "PET_TYPE_CAT"] ["PET_TYPE_DOG"] (by decide),
   (C5_vocab_constraints.2.2.2 "jpy" Option.none "jpy").mpr
     ⟨by decide, by decide, by decide, by decide⟩⟩

/-- C5, counterexample to the claim as stated: the reply `"123"` is three
characters but not alphabetic, yet the currency branch accepts it as a
valid code. -/
theorem C5_nonalpha_currency_accepted :
    llm_extract (some "123") "pet_fee_currency" "str" Option.none =
      (some (.vs "123"), false) ∧
    ¬ ("123".data.all Char.isAlpha = true) := by decide

end WebScraper
